import Mathlib

/-!
Verification development for the Lvault email worker (`src/index.ts`).

JavaScript strings are modelled as `List Char`; byte streams as
`List (List Nat)` (the chunk list of a `Uint8Array` stream).  The
functions below are direct translations of `parseEmailBody`,
`forwardEmail`'s payload composition, and the top-level `email` handler.
String-splitting helpers use an explicit fuel argument (the input
length) so that every definition reduces in the kernel.
-/

namespace Lvault

/-- The JavaScript whitespace class used by `String.prototype.trim` and
by the regex escape for whitespace (WhiteSpace plus LineTerminator). -/
def isJsWs (c : Char) : Bool :=
  c = ' ' || c = '\t' || c = '\n' || c = '\r' || c = '\x0b' || c = '\x0c' ||
  c = ' ' || (0x1680 = c.toNat) || (0x2000 ≤ c.toNat && c.toNat ≤ 0x200A) ||
  (0x2028 = c.toNat) || (0x2029 = c.toNat) || (0x202F = c.toNat) ||
  (0x205F = c.toNat) || (0x3000 = c.toNat) || (0xFEFF = c.toNat)

/-- `s.trim()` on the `List Char` model. -/
def jsTrim (l : List Char) : List Char :=
  ((l.dropWhile isJsWs).reverse.dropWhile isJsWs).reverse

/-- One line terminator as matched by a single `\r?\n` regex atom. -/
def matchNewline : List Char → Option (List Char)
  | '\r' :: '\n' :: rest => some rest
  | '\n' :: rest => some rest
  | _ => none

/-- A blank-line boundary: the regex `\r?\n\r?\n` matched at the head. -/
def matchBlank (l : List Char) : Option (List Char) :=
  (matchNewline l).bind matchNewline

/-- Fueled worker for `split(/\r?\n\r?\n/)`. -/
def splitBlankAux : Nat → List Char → List Char → List (List Char)
  | _, [], acc => [acc.reverse]
  | 0, l, acc => [acc.reverse ++ l]
  | fuel + 1, c :: rest, acc =>
    match matchBlank (c :: rest) with
    | some rest2 => acc.reverse :: splitBlankAux fuel rest2 []
    | none => splitBlankAux fuel rest (c :: acc)

/-- `s.split(/\r?\n\r?\n/)`: split a string on blank-line boundaries. -/
def splitBlank (l : List Char) : List (List Char) :=
  splitBlankAux l.length l []

/-- `parts.join('\n\n')`. -/
def joinNN (parts : List (List Char)) : List Char :=
  List.intercalate ('\n' :: '\n' :: []) parts

/-- Case-insensitive literal match at the head (ASCII folding, as for
the regex `i` flag on an ASCII literal); returns the remainder. -/
def stripCI : List Char → List Char → Option (List Char)
  | [], l => some l
  | _ :: _, [] => none
  | p :: ps, c :: cs => if p.toLower = c.toLower then stripCI ps cs else none

/-- Characters admitted by the regex class `[^;\r\n]`. -/
def notSemiCrLf (c : Char) : Bool :=
  !(c = ';' || c = '\r' || c = '\n')

/-- The literal matched case-insensitively by the content-type regex. -/
def ctKey : List Char := "Content-Type:".toList

/-- The literal matched case-insensitively by the boundary regex. -/
def boundaryKey : List Char := "boundary=".toList

/-- Match `\s*([^;\r\n]+)` at the head with the regex's greedy
backtracking and return the capture group. -/
def matchWsCapture : List Char → Option (List Char)
  | [] => none
  | c :: rest =>
    if isJsWs c then
      match matchWsCapture rest with
      | some g => some g
      | none =>
        if c = '\r' || c = '\n' then none
        else some (c :: rest.takeWhile notSemiCrLf)
    else
      if c = ';' then none
      else some (c :: rest.takeWhile notSemiCrLf)

/-- `headers.match(/Content-Type:\s*([^;\r\n]+)/i)`: the capture group
of the leftmost match, if any. -/
def findContentType : List Char → Option (List Char)
  | [] => none
  | c :: rest =>
    match stripCI ctKey (c :: rest) with
    | some after =>
      match matchWsCapture after with
      | some g => some g
      | none => findContentType rest
    | none => findContentType rest

/-- `headers.match(/boundary=([^;\r\n]+)/i)`: the capture group of the
leftmost match, if any. -/
def findBoundary : List Char → Option (List Char)
  | [] => none
  | c :: rest =>
    match stripCI boundaryKey (c :: rest) with
    | some after =>
      let g := after.takeWhile notSemiCrLf
      if g = [] then findBoundary rest else some g
    | none => findBoundary rest

/-- Whether a case-insensitive occurrence of `pat` exists anywhere. -/
def containsCI (pat : List Char) : List Char → Bool
  | [] => (stripCI pat []).isSome
  | c :: rest => (stripCI pat (c :: rest)).isSome || containsCI pat rest

/-- `token.replace(/['"]/g, '')`: remove every quote character. -/
def stripQuotes (l : List Char) : List Char :=
  l.filter (fun c => !(c = Char.ofNat 39 || c = '"'))

/-- `s.includes(sub)`: substring containment. -/
def jsIncludes : List Char → List Char → Bool
  | [], sub => sub.isPrefixOf []
  | s@(_ :: t), sub => sub.isPrefixOf s || jsIncludes t sub

/-- The literal `text/plain` searched for in section headers. -/
def plainTok : List Char := "text/plain".toList

/-- The literal `text/html` searched for in section headers. -/
def htmlTok : List Char := "text/html".toList

/-- Exact literal match at the head; returns the remainder. -/
def dropExact : List Char → List Char → Option (List Char)
  | [], l => some l
  | _ :: _, [] => none
  | p :: ps, c :: cs => if p = c then dropExact ps cs else none

/-- Fueled worker for `s.split(sep)` with a literal separator. -/
def splitOnSepAux (sep : List Char) : Nat → List Char → List Char → List (List Char)
  | _, [], acc => [acc.reverse]
  | 0, l, acc => [acc.reverse ++ l]
  | fuel + 1, c :: rest, acc =>
    match dropExact sep (c :: rest) with
    | some rest2 => acc.reverse :: splitOnSepAux sep fuel rest2 []
    | none => splitOnSepAux sep fuel rest (c :: acc)

/-- `s.split(sep)` for a literal (non-empty, here `--boundary`) separator. -/
def splitOnSep (sep l : List Char) : List (List Char) :=
  splitOnSepAux sep l.length l []

/-- The decoder's output record (`ParsedEmailContent` in the source). -/
structure ParsedEmailContent where
  textBody : List Char
  htmlBody : Option (List Char)
  contentType : List Char
deriving DecidableEq, Repr

/-- Split one trimmed multipart section into its header fragment and
its (blank-line separated, rejoined, trimmed) body fragment:
`const [partHeaders, ...partBodyParts] = part.split(/\r?\n\r?\n/)`.
`splitBlank` never returns `[]`, so the first branch is unreachable. -/
def sectionHeaderBody (part : List Char) : List Char × List Char :=
  match splitBlank part with
  | [] => ([], [])
  | h :: rest => (h, jsTrim (joinNN rest))

/-- Trim a raw section, skip empty sections and the terminator `--`,
and split the rest into header/body fragments. -/
def processSection (p : List Char) : Option (List Char × List Char) :=
  let part := jsTrim p
  if part = [] || part = "--".toList then none
  else some (sectionHeaderBody part)

/-- One iteration of the multipart classification loop: a `text/plain`
header overwrites the plain candidate, otherwise a `text/html` header
overwrites the html candidate. -/
def classifyStep (acc : List Char × List Char) (p : List Char) : List Char × List Char :=
  match processSection p with
  | none => acc
  | some (h, b) =>
    if jsIncludes h plainTok then (b, acc.2)
    else if jsIncludes h htmlTok then (acc.1, b)
    else acc

/-- The multipart loop over all sections, starting from empty candidates. -/
def classifySections (secs : List (List Char)) : List Char × List Char :=
  secs.foldl classifyStep ([], [])

/-- `bodyContent.split('--' + boundary)`. -/
def sectionsOf (bodyContent boundary : List Char) : List (List Char) :=
  splitOnSep ('-' :: '-' :: boundary) bodyContent

/-- The multipart branch of `parseEmailBody` (source lines 118-145):
disassemble, classify, and apply the three-way fallback chain with
JavaScript string truthiness (empty string is falsy). -/
def multipartResolve (bodyContent boundary contentType : List Char) : ParsedEmailContent :=
  let cands := classifySections (sectionsOf bodyContent boundary)
  { textBody :=
      if cands.1 ≠ [] then cands.1
      else if cands.2 ≠ [] then cands.2
      else jsTrim bodyContent
    htmlBody := if cands.2 ≠ [] then some cands.2 else none
    contentType :=
      if cands.1 ≠ [] then plainTok
      else if cands.2 ≠ [] then htmlTok
      else contentType }

/-- `parts[0]`: the header block. -/
def headersOf (rawText : List Char) : List Char :=
  (splitBlank rawText).headD []

/-- `parts.slice(1).join('\n\n')`: the body block. -/
def bodyOf (rawText : List Char) : List Char :=
  joinNN (splitBlank rawText).tail

/-- The resolved content type: the trimmed, lowercased capture of the
`Content-Type` header match, defaulting to `text/plain`. -/
def ctypeOf (rawText : List Char) : List Char :=
  match findContentType (headersOf rawText) with
  | some g => (jsTrim g).map Char.toLower
  | none => "text/plain".toList

/-- `parseEmailBody` on the decoded text (source lines 87-153). -/
def parseDecoded (rawText : List Char) : ParsedEmailContent :=
  if (splitBlank rawText).length < 2 then
    { textBody := jsTrim rawText, htmlBody := none, contentType := "text/plain".toList }
  else if jsIncludes (ctypeOf rawText) ("multipart".toList) then
    match findBoundary (headersOf rawText) with
    | some g => multipartResolve (bodyOf rawText) (stripQuotes g) (ctypeOf rawText)
    | none =>
      { textBody := jsTrim (bodyOf rawText), htmlBody := none, contentType := ctypeOf rawText }
  else
    { textBody := jsTrim (bodyOf rawText), htmlBody := none, contentType := ctypeOf rawText }

/-! ## Byte assembly and UTF-8 decoding -/

/-- The replacement character emitted for malformed UTF-8. -/
def replChar : Char := Char.ofNat 0xFFFD

/-- Handle one byte arriving with no sequence in progress (the WHATWG
UTF-8 decoder): returns emitted characters and the new decoder state
`(needed, codepoint, lower, upper)`. -/
def utf8Start (b : Nat) : List Char × Nat × Nat × Nat × Nat :=
  if b ≤ 0x7F then ([Char.ofNat b], 0, 0, 0x80, 0xBF)
  else if 0xC2 ≤ b && b ≤ 0xDF then ([], 1, b % 0x20, 0x80, 0xBF)
  else if 0xE0 ≤ b && b ≤ 0xEF then
    ([], 2, b % 0x10, if b = 0xE0 then 0xA0 else 0x80, if b = 0xED then 0x9F else 0xBF)
  else if 0xF0 ≤ b && b ≤ 0xF4 then
    ([], 3, b % 0x8, if b = 0xF0 then 0x90 else 0x80, if b = 0xF4 then 0x8F else 0xBF)
  else ([replChar], 0, 0, 0x80, 0xBF)

/-- The WHATWG UTF-8 decoding loop (`new TextDecoder().decode`, which
never throws: malformed input yields replacement characters).  An
out-of-range continuation byte emits a replacement character and is
reprocessed as a fresh first byte. -/
def utf8DecodeAux : List Nat → Nat → Nat → Nat → Nat → List Char
  | [], needed, _, _, _ => if needed = 0 then [] else [replChar]
  | b :: rest, 0, _, _, _ =>
    let s := utf8Start b
    s.1 ++ utf8DecodeAux rest s.2.1 s.2.2.1 s.2.2.2.1 s.2.2.2.2
  | b :: rest, needed + 1, cp, lo, hi =>
    if lo ≤ b && b ≤ hi then
      let cp2 := cp * 64 + b % 64
      if needed = 0 then Char.ofNat cp2 :: utf8DecodeAux rest 0 0 0x80 0xBF
      else utf8DecodeAux rest needed cp2 0x80 0xBF
    else
      let s := utf8Start b
      replChar :: (s.1 ++ utf8DecodeAux rest s.2.1 s.2.2.1 s.2.2.2.1 s.2.2.2.2)

/-- Decode a byte sequence as UTF-8 text. -/
def utf8Decode (bytes : List Nat) : List Char :=
  utf8DecodeAux bytes 0 0 0x80 0xBF

/-- Concatenate the stream's chunks in arrival order (the `combined`
buffer built in the read loop). -/
def combineChunks (chunks : List (List Nat)) : List Nat :=
  chunks.foldl (fun acc c => acc ++ c) []

/-- The Byte Assembler: drain the chunked stream, concatenate, decode. -/
def assembleText (chunks : List (List Nat)) : List Char :=
  utf8Decode (combineChunks chunks)

/-- `parseEmailBody` from the raw chunked byte stream. -/
def parseEmailBody (chunks : List (List Nat)) : ParsedEmailContent :=
  parseDecoded (assembleText chunks)

/-! ## Forward-message composition (`forwardEmail`) -/

/-- An address of the inbound event (`EmailAddress` in the source);
`name` is the optional display name. -/
structure EmailAddr where
  email : List Char
  name : Option (List Char)
deriving DecidableEq, Repr

/-- The fields of the inbound `EmailMessage` that the worker reads,
with the raw stream as its chunk list. -/
structure EmailMsg where
  fromAddr : EmailAddr
  toAddrs : List EmailAddr
  subject : List Char
  raw : List (List Nat)
deriving DecidableEq, Repr

/-- One element of the payload's `content` array. -/
structure ContentPart where
  ctype : List Char
  value : List Char
deriving DecidableEq, Repr

/-- The MailChannels payload composed by `forwardEmail`. -/
structure MailChannelsPayload where
  toEmail : List Char
  fromEmail : List Char
  fromName : Option (List Char)
  subject : List Char
  content : List ContentPart
deriving DecidableEq, Repr

/-- `name ? name + ' <' + email + '>' : email` (plain-text envelope). -/
def formatAddrText (a : EmailAddr) : List Char :=
  match a.name with
  | some n => if n = [] then a.email else n ++ " <".toList ++ a.email ++ ">".toList
  | none => a.email

/-- `name ? name + ' &lt;' + email + '&gt;' : email` (HTML envelope:
only the surrounding angle brackets are written as entities). -/
def formatAddrHtml (a : EmailAddr) : List Char :=
  match a.name with
  | some n => if n = [] then a.email else n ++ " &lt;".toList ++ a.email ++ "&gt;".toList
  | none => a.email

/-- `addrs.map(fmt).join(', ')`. -/
def joinAddrs (fmt : EmailAddr → List Char) (l : List EmailAddr) : List Char :=
  List.intercalate (", ".toList) (l.map fmt)

/-- The plain-text envelope (source lines 177-185), trimmed; `now`
stands for `new Date().toISOString()`. -/
def textContent (msg : EmailMsg) (parsed : ParsedEmailContent) (now : List Char) : List Char :=
  jsTrim <|
    "\n---------- Forwarded Message ----------\nFrom: ".toList ++
    formatAddrText msg.fromAddr ++
    "\nTo: ".toList ++ joinAddrs formatAddrText msg.toAddrs ++
    "\nSubject: ".toList ++ msg.subject ++
    "\nDate: ".toList ++ now ++
    "\n\n".toList ++ parsed.textBody ++
    "\n  ".toList

/-- The HTML envelope (source lines 194-209), trimmed: a fixed HTML
document whose header lines embed the sender, recipients, subject and
date, followed by the resolved `htmlBody` verbatim. -/
def htmlContent (msg : EmailMsg) (hb : List Char) (now : List Char) : List Char :=
  jsTrim <|
    "\n<!DOCTYPE html>\n<html>\n<head><title>Forwarded Message</title></head>\n<body>\n<div style=\"border-bottom: 2px solid #ccc; padding-bottom: 10px; margin-bottom: 20px;\">\n<h3>Forwarded Message</h3>\n<p><strong>From:</strong> ".toList ++
    formatAddrHtml msg.fromAddr ++
    "</p>\n<p><strong>To:</strong> ".toList ++ joinAddrs formatAddrHtml msg.toAddrs ++
    "</p>\n<p><strong>Subject:</strong> ".toList ++ msg.subject ++
    "</p>\n<p><strong>Date:</strong> ".toList ++ now ++
    "</p>\n</div>\n<div>".toList ++ hb ++
    "</div>\n</body>\n</html>\n    ".toList

/-- The `content` array: always the `text/plain` part, plus a
`text/html` part when an HTML body was resolved. -/
def buildContent (msg : EmailMsg) (parsed : ParsedEmailContent) (now : List Char) :
    List ContentPart :=
  ⟨plainTok, textContent msg parsed now⟩ ::
    match parsed.htmlBody with
    | some hb => [⟨htmlTok, htmlContent msg hb now⟩]
    | none => []

/-- The full MailChannels payload composed by `forwardEmail`; an empty
display name is dropped (`message.from.name || undefined`). -/
def buildPayload (msg : EmailMsg) (parsed : ParsedEmailContent)
    (forwardTo now : List Char) : MailChannelsPayload :=
  { toEmail := forwardTo
    fromEmail := msg.fromAddr.email
    fromName := match msg.fromAddr.name with
      | some [] => none
      | x => x
    subject := "[Forwarded] ".toList ++ msg.subject
    content := buildContent msg parsed now }

/-! ## The top-level `email` handler -/

/-- The outcome of the single outbound `fetch` to MailChannels. -/
inductive SendOutcome where
  | ok (body : List Char)
  | httpError (status : Nat) (body : List Char)
  | netError (message : List Char)
deriving DecidableEq, Repr

/-- The handler's `Response` (status and text body). -/
structure HandlerResponse where
  status : Nat
  body : List Char
deriving DecidableEq, Repr

/-- Observable effects of one handler invocation: how many times the
parser ran and how many outbound sends were issued. -/
structure HandlerTrace where
  parseCalls : Nat
  sendCalls : Nat
deriving DecidableEq, Repr

/-- The body of the configuration-error response. -/
def configErrorBody : List Char :=
  "Configuration error: FORWARD_TO_EMAIL environment variable not set".toList

/-- The message of the error thrown on a non-success send status:
`'MailChannels API failed: ' + status + ' - ' + errorText`. -/
def sendFailMessage (st : Nat) (errorText : List Char) : List Char :=
  "MailChannels API failed: ".toList ++ (toString st).toList ++ " - ".toList ++ errorText

/-- The top-level `email` handler: a missing (or empty, hence falsy)
`FORWARD_TO_EMAIL` short-circuits to a 500 before any parsing; otherwise
the message is parsed and sent once, and any thrown error is reported as
a 500 whose body embeds the error's message. -/
def emailHandler (msg : EmailMsg) (forwardTo : Option (List Char))
    (send : MailChannelsPayload → SendOutcome) (now : List Char) :
    HandlerResponse × HandlerTrace :=
  if forwardTo.getD [] = [] then
    (⟨500, configErrorBody⟩, ⟨0, 0⟩)
  else
    let parsed := parseEmailBody msg.raw
    let payload := buildPayload msg parsed (forwardTo.getD []) now
    match send payload with
    | .ok _ => (⟨200, "Email processed and forwarded successfully".toList⟩, ⟨1, 1⟩)
    | .httpError st b =>
      (⟨500, "Email processing failed: ".toList ++ sendFailMessage st b⟩, ⟨1, 1⟩)
    | .netError m =>
      (⟨500, "Email processing failed: ".toList ++ m⟩, ⟨1, 1⟩)

/-! ## Declarative restatements of the multipart classification

The loop in `classifySections` is an imperative overwrite; the
selectors below describe, per section, which sections classify as
plain-text or HTML, so that the loop's result can be compared with
"the body fragment of the last matching section". -/

/-- The body fragment of a section classified as plain-text (its header
fragment contains `text/plain`). -/
def plainSel (p : List Char) : Option (List Char) :=
  match processSection p with
  | none => none
  | some (h, b) => if jsIncludes h plainTok then some b else none

/-- The body fragment of a section classified as HTML by the loop (its
header fragment contains `text/html` but not `text/plain`, because the
`text/plain` branch is tested first). -/
def htmlSel (p : List Char) : Option (List Char) :=
  match processSection p with
  | none => none
  | some (h, b) =>
    if jsIncludes h plainTok then none
    else if jsIncludes h htmlTok then some b else none

/-- The body fragment of any section whose header fragment contains
`text/html`, whether or not it also contains `text/plain`. -/
def htmlAllSel (p : List Char) : Option (List Char) :=
  match processSection p with
  | none => none
  | some (h, b) => if jsIncludes h htmlTok then some b else none

/-- Body fragments of all plain-text-classified sections, in boundary order. -/
def plainFragments (secs : List (List Char)) : List (List Char) :=
  secs.filterMap plainSel

/-- Body fragments of all HTML-classified sections, in boundary order. -/
def htmlFragments (secs : List (List Char)) : List (List Char) :=
  secs.filterMap htmlSel

/-- Body fragments of all sections mentioning `text/html`, in boundary order. -/
def htmlAllFragments (secs : List (List Char)) : List (List Char) :=
  secs.filterMap htmlAllSel

/-- The classification loop computes exactly the last plain-classified
and last HTML-classified body fragments (or the accumulator defaults
when no section matches). -/
theorem foldl_classify_eq (secs : List (List Char)) :
    ∀ tb hb : List Char,
      secs.foldl classifyStep (tb, hb) =
        ((plainFragments secs).getLastD tb, (htmlFragments secs).getLastD hb) := by
  induction secs with
  | nil => intro tb hb; simp [plainFragments, htmlFragments]
  | cons s ss ih =>
    intro tb hb
    unfold plainFragments htmlFragments
    cases hps : processSection s with
    | none =>
      have h1 : classifyStep (tb, hb) s = (tb, hb) := by simp [classifyStep, hps]
      have h2 : plainSel s = none := by simp [plainSel, hps]
      have h3 : htmlSel s = none := by simp [htmlSel, hps]
      simp only [List.foldl_cons, h1, List.filterMap_cons, h2, h3]
      exact ih tb hb
    | some pr =>
      obtain ⟨h, b⟩ := pr
      by_cases hp : jsIncludes h plainTok = true
      · have h1 : classifyStep (tb, hb) s = (b, hb) := by simp [classifyStep, hps, hp]
        have h2 : plainSel s = some b := by simp [plainSel, hps, hp]
        have h3 : htmlSel s = none := by simp [htmlSel, hps, hp]
        simp only [List.foldl_cons, h1, List.filterMap_cons, h2, h3, List.getLastD_cons]
        exact ih b hb
      · by_cases hh : jsIncludes h htmlTok = true
        · have h1 : classifyStep (tb, hb) s = (tb, b) := by simp [classifyStep, hps, hp, hh]
          have h2 : plainSel s = none := by simp [plainSel, hps, hp]
          have h3 : htmlSel s = some b := by simp [htmlSel, hps, hp, hh]
          simp only [List.foldl_cons, h1, List.filterMap_cons, h2, h3, List.getLastD_cons]
          exact ih tb b
        · have h1 : classifyStep (tb, hb) s = (tb, hb) := by simp [classifyStep, hps, hp, hh]
          have h2 : plainSel s = none := by simp [plainSel, hps, hp]
          have h3 : htmlSel s = none := by simp [htmlSel, hps, hp, hh]
          simp only [List.foldl_cons, h1, List.filterMap_cons, h2, h3]
          exact ih tb hb

/-- The two candidates of the multipart loop as last-matching fragments. -/
theorem classifySections_eq (secs : List (List Char)) :
    classifySections secs =
      ((plainFragments secs).getLastD [], (htmlFragments secs).getLastD []) :=
  foldl_classify_eq secs [] []

/-- C1: for every multipart body disassembled with a boundary token, the
resolved `textBody` is the plain-text candidate (the last plain-classified
section's body fragment) when one was found (non-empty), else the HTML
candidate when found, else the raw unsplit body block trimmed; the
resolved `contentType` is `text/plain` when a plain candidate was found,
else `text/html` when an HTML candidate was found, else the declared
multipart type; in particular, when only an HTML candidate is found,
`textBody` is the HTML candidate and `contentType` becomes `text/html`. -/
theorem multipart_fallback_chain (body boundary declared : List Char) :
    ((multipartResolve body boundary declared).textBody =
      if (plainFragments (sectionsOf body boundary)).getLastD [] ≠ [] then
        (plainFragments (sectionsOf body boundary)).getLastD []
      else if (htmlFragments (sectionsOf body boundary)).getLastD [] ≠ [] then
        (htmlFragments (sectionsOf body boundary)).getLastD []
      else jsTrim body) ∧
    ((multipartResolve body boundary declared).contentType =
      if (plainFragments (sectionsOf body boundary)).getLastD [] ≠ [] then plainTok
      else if (htmlFragments (sectionsOf body boundary)).getLastD [] ≠ [] then htmlTok
      else declared) ∧
    ((plainFragments (sectionsOf body boundary)).getLastD [] = [] →
      (htmlFragments (sectionsOf body boundary)).getLastD [] ≠ [] →
      (multipartResolve body boundary declared).textBody =
        (htmlFragments (sectionsOf body boundary)).getLastD [] ∧
      (multipartResolve body boundary declared).contentType = htmlTok) := by
  have hc := classifySections_eq (sectionsOf body boundary)
  refine ⟨?_, ?_, ?_⟩
  · simp only [multipartResolve, hc]
  · simp only [multipartResolve, hc]
  · intro h1 h2
    simp only [multipartResolve, hc, h1]
    rw [List.getLastD_eq_getLast?] at h2
    simp [h2]

/-- Concrete instance of the only-HTML branch of the fallback chain. -/
def c1Body : List Char :=
  ("--B\nContent-Type: text/html\n\n<b>Hi</b>\n--B--").toList

/-- Boundary token for the C1 witness input. -/
def c1Bnd : List Char := ['B']

/-- Witness for `multipart_fallback_chain` at an input whose only
classified section is HTML. -/
theorem multipart_fallback_chain_witness :
    (multipartResolve c1Body c1Bnd ("multipart/alternative".toList)).textBody =
      (htmlFragments (sectionsOf c1Body c1Bnd)).getLastD [] ∧
    (multipartResolve c1Body c1Bnd ("multipart/alternative".toList)).contentType = htmlTok :=
  (multipart_fallback_chain c1Body c1Bnd ("multipart/alternative".toList)).2.2
    (by decide) (by decide)

/-- Multipart body whose second `text/plain` section has an empty body
fragment: the overwrite erases the earlier candidate. -/
def c2Body : List Char :=
  ("--B\nContent-Type: text/plain\n\nHello\n--B\nContent-Type: text/plain\n--B--").toList

/-- Multipart body whose last section mentioning `text/html` also
mentions `text/plain` and is therefore classified as plain. -/
def c2BodyBoth : List Char :=
  ("--B\nContent-Type: text/html\n\nFirst\n--B\nX-Note: text/plain text/html\n\nSecond\n--B--").toList

/-- Boundary token for the C2 inputs. -/
def c2Bnd : List Char := ['B']

/-- Declared outer type for the C2 inputs. -/
def c2Ct : List Char := "multipart/mixed".toList

/-- C2 fails as stated: at `c2Body` two sections declare `text/plain`,
yet the resolved `textBody` is not the last such section's body fragment
(that fragment is empty, so the fallback chain takes over); and at
`c2BodyBoth` the HTML candidate is not the body fragment of the last
section containing `text/html` (that section also contains `text/plain`
and is classified as plain by the first-match rule). -/
theorem last_section_wins_counterexample :
    (plainFragments (sectionsOf c2Body c2Bnd)).length = 2 ∧
    (multipartResolve c2Body c2Bnd c2Ct).textBody ≠
      (plainFragments (sectionsOf c2Body c2Bnd)).getLastD [] ∧
    (htmlAllFragments (sectionsOf c2BodyBoth c2Bnd)).getLastD [] = "Second".toList ∧
    (classifySections (sectionsOf c2BodyBoth c2Bnd)).2 ≠ "Second".toList := by
  decide

/-- C2 amended: later sections overwrite earlier ones, so the plain
candidate is the body fragment of the last section whose headers contain
`text/plain`, and it is the resolved `textBody` provided that fragment is
non-empty; the HTML candidate is the body fragment of the last section
whose headers contain `text/html` but not `text/plain`. -/
theorem last_section_wins_amended (body boundary declared : List Char)
    (hlast : (plainFragments (sectionsOf body boundary)).getLastD [] ≠ []) :
    (multipartResolve body boundary declared).textBody =
      (plainFragments (sectionsOf body boundary)).getLastD [] ∧
    (classifySections (sectionsOf body boundary)).1 =
      (plainFragments (sectionsOf body boundary)).getLastD [] ∧
    (classifySections (sectionsOf body boundary)).2 =
      (htmlFragments (sectionsOf body boundary)).getLastD [] := by
  have hc := classifySections_eq (sectionsOf body boundary)
  refine ⟨?_, by rw [hc], by rw [hc]⟩
  simp only [multipartResolve, hc]
  rw [List.getLastD_eq_getLast?] at hlast
  simp [hlast]

/-- Multipart body with two non-empty `text/plain` sections. -/
def c2AmBody : List Char :=
  ("--B\nContent-Type: text/plain\n\nfirst\n--B\nContent-Type: text/plain\n\nsecond\n--B--").toList

/-- Witness for `last_section_wins_amended` on two non-empty plain sections. -/
theorem last_section_wins_amended_witness :
    (multipartResolve c2AmBody c2Bnd c2Ct).textBody =
      (plainFragments (sectionsOf c2AmBody c2Bnd)).getLastD [] ∧
    (classifySections (sectionsOf c2AmBody c2Bnd)).1 =
      (plainFragments (sectionsOf c2AmBody c2Bnd)).getLastD [] ∧
    (classifySections (sectionsOf c2AmBody c2Bnd)).2 =
      (htmlFragments (sectionsOf c2AmBody c2Bnd)).getLastD [] :=
  last_section_wins_amended c2AmBody c2Bnd c2Ct (by decide)

/-! ## Single-part and no-structure fallbacks -/

/-- Whether the regex `\r?\n\r?\n` matches anywhere in the text, i.e.
whether a blank-line boundary (two consecutive CR-LF or LF line
terminators) exists. -/
def hasBlankBoundary : List Char → Bool
  | [] => false
  | c :: rest => (matchBlank (c :: rest)).isSome || hasBlankBoundary rest

/-- Without a blank-line boundary the splitter never splits. -/
theorem splitBlankAux_no_match (l : List Char) (hnb : hasBlankBoundary l = false) :
    ∀ fuel acc, splitBlankAux fuel l acc = [acc.reverse ++ l] := by
  induction l with
  | nil => intro fuel acc; cases fuel <;> simp [splitBlankAux]
  | cons c rest ih =>
    intro fuel acc
    have hsplit := hnb
    rw [hasBlankBoundary, Bool.or_eq_false_iff] at hsplit
    obtain ⟨hm0, hnb'⟩ := hsplit
    have hm : matchBlank (c :: rest) = none := by
      cases hx : matchBlank (c :: rest) with
      | none => rfl
      | some v => rw [hx] at hm0; simp at hm0
    cases fuel with
    | zero => simp [splitBlankAux]
    | succ fuel =>
      simp only [splitBlankAux, hm]
      rw [ih hnb' fuel (c :: acc)]
      simp

/-- Without a blank-line boundary the split returns the whole text. -/
theorem splitBlank_no_match (l : List Char) (hnb : hasBlankBoundary l = false) :
    splitBlank l = [l] := by
  simpa using splitBlankAux_no_match l hnb l.length []

/-- C3: for every decoded message text containing no blank-line boundary
(no CR-LF or LF line terminator repeated twice), the parser returns the
trimmed full text as `textBody` with content type `text/plain` and no
`htmlBody`, regardless of any headers or multipart markers in the text. -/
theorem no_boundary_single_part (rawText : List Char)
    (hnb : hasBlankBoundary rawText = false) :
    parseDecoded rawText =
      ⟨jsTrim rawText, none, "text/plain".toList⟩ := by
  have hs := splitBlank_no_match rawText hnb
  simp [parseDecoded, hs]

/-- Witness for `no_boundary_single_part`: headers and multipart markers
with no blank line anywhere are still treated as a plain body. -/
theorem no_boundary_single_part_witness :
    hasBlankBoundary ("Content-Type: multipart/mixed; boundary=Z\n--Z just text--Z--".toList)
      = false ∧
    parseDecoded ("Content-Type: multipart/mixed; boundary=Z\n--Z just text--Z--".toList) =
      ⟨("Content-Type: multipart/mixed; boundary=Z\n--Z just text--Z--").toList, none,
        "text/plain".toList⟩ :=
  ⟨by decide,
    by
      rw [no_boundary_single_part _ (by decide)]
      decide⟩

/-- A header block with no case-insensitive `boundary=` occurrence makes
the boundary regex fail. -/
theorem findBoundary_none_of_not_containsCI (l : List Char)
    (h : containsCI boundaryKey l = false) :
    findBoundary l = none := by
  induction l with
  | nil => simp [findBoundary]
  | cons c rest ih =>
    have hsplit := h
    rw [containsCI, Bool.or_eq_false_iff] at hsplit
    obtain ⟨hm0, h'⟩ := hsplit
    have hm : stripCI boundaryKey (c :: rest) = none := by
      cases hx : stripCI boundaryKey (c :: rest) with
      | none => rfl
      | some v => rw [hx] at hm0; simp at hm0
    simp [findBoundary, hm, ih h']

/-- C4: for every message whose resolved content type contains
`multipart` but whose header block contains no `boundary=` parameter, no
multipart disassembly happens: the parser returns the trimmed body block
with the declared (multipart) content type and no `htmlBody`. -/
theorem multipart_without_boundary (rawText : List Char)
    (h2 : ¬ (splitBlank rawText).length < 2)
    (hm : jsIncludes (ctypeOf rawText) ("multipart".toList) = true)
    (hb : containsCI boundaryKey (headersOf rawText) = false) :
    parseDecoded rawText =
      ⟨jsTrim (bodyOf rawText), none, ctypeOf rawText⟩ := by
  have hfb := findBoundary_none_of_not_containsCI (headersOf rawText) hb
  simp [parseDecoded, h2, hm, hfb]

/-- Concrete message declaring multipart with no boundary parameter. -/
def c4Raw : List Char :=
  ("Content-Type: multipart/mixed\n\nhello world").toList

/-- Witness for `multipart_without_boundary`. -/
theorem multipart_without_boundary_witness :
    parseDecoded c4Raw = ⟨"hello world".toList, none, "multipart/mixed".toList⟩ := by
  rw [multipart_without_boundary c4Raw (by decide) (by decide) (by decide)]
  decide

/-! ## String helper lemmas -/

/-- Dropping a whitespace run at the front skips past it. -/
theorem dropWhile_all_append (w l : List Char) (hw : w.all isJsWs = true) :
    (w ++ l).dropWhile isJsWs = l.dropWhile isJsWs := by
  induction w with
  | nil => simp
  | cons c cs ih =>
    simp only [List.all_cons, Bool.and_eq_true] at hw
    simp [List.dropWhile_cons, hw.1, ih hw.2]

/-- Trimming ignores an all-whitespace run prepended to the text. -/
theorem jsTrim_ws_left (w l : List Char) (hw : w.all isJsWs = true) :
    jsTrim (w ++ l) = jsTrim l := by
  simp [jsTrim, dropWhile_all_append w l hw]

/-- Trimming ignores an all-whitespace run appended to the text. -/
theorem jsTrim_ws_right (l w : List Char) (hw : w.all isJsWs = true) :
    jsTrim (l ++ w) = jsTrim l := by
  unfold jsTrim
  rcases hd : l.dropWhile isJsWs with _ | ⟨c, rest⟩
  · have hw' : (l ++ w).dropWhile isJsWs = w.dropWhile isJsWs := by
      rw [List.dropWhile_append, hd]; simp
    have hwnil : w.dropWhile isJsWs = [] :=
      List.dropWhile_eq_nil_iff.mpr (by simpa [List.all_eq_true] using hw)
    simp [hw', hwnil, hd]
  · have hw' : (l ++ w).dropWhile isJsWs = (c :: rest) ++ w := by
      rw [List.dropWhile_append, hd]; simp
    rw [hw']
    have hrev : ((c :: rest) ++ w).reverse = w.reverse ++ (c :: rest).reverse :=
      List.reverse_append _ _
    rw [hrev, dropWhile_all_append w.reverse (c :: rest).reverse (by simpa using hw)]

/-- Trimming a text whose first and last characters are not whitespace
is the identity. -/
theorem jsTrim_eq_self (l : List Char)
    (hh : isJsWs (l.headD ' ') = false) (hz : isJsWs (l.getLastD ' ') = false) :
    jsTrim l = l := by
  rcases l with _ | ⟨c, rest⟩
  · rfl
  · simp only [List.headD_cons] at hh
    rcases List.eq_nil_or_concat rest with hr | ⟨pre, z, hr⟩
    · subst hr
      simp [jsTrim, List.dropWhile_cons, hh]
    · subst hr
      have hz' : isJsWs z = false := by
        have h1 : (c :: pre.concat z).getLastD ' ' = z := by
          rw [List.getLastD_cons, List.concat_eq_append, List.getLastD_concat]
        rwa [h1] at hz
      simp [jsTrim, List.concat_eq_append, List.dropWhile_cons, hh, hz',
        List.reverse_append]

/-- A string of which `sub` is a literal head segment contains it. -/
theorem jsIncludes_of_isPrefixOf (s sub : List Char) (h : sub.isPrefixOf s = true) :
    jsIncludes s sub = true := by
  cases s with
  | nil => simpa [jsIncludes] using h
  | cons c t => simp [jsIncludes, h]

/-- A substring exhibited by an explicit decomposition is found by
`jsIncludes`. -/
theorem jsIncludes_append (p sub q : List Char) :
    jsIncludes (p ++ sub ++ q) sub = true := by
  induction p with
  | nil =>
    refine jsIncludes_of_isPrefixOf _ _ ?_
    simpa using List.isPrefixOf_iff_prefix.mpr (List.prefix_append sub q)
  | cons c p' ih =>
    rw [List.cons_append, List.cons_append]
    have hstep : jsIncludes (c :: (p' ++ sub ++ q)) sub =
        (sub.isPrefixOf (c :: (p' ++ sub ++ q)) || jsIncludes (p' ++ sub ++ q) sub) := rfl
    rw [hstep, ih, Bool.or_true]

/-! ## C5: content parts of the composed payload -/

/-- C5: for every message, the composed payload's `content` list has
exactly one `text/plain` part, and it has a `text/html` part if and only
if the parser resolved an `htmlBody`. -/
theorem payload_content_parts (msg : EmailMsg) (parsed : ParsedEmailContent)
    (fwd now : List Char) :
    ((buildPayload msg parsed fwd now).content.countP
        (fun p => p.ctype == plainTok) = 1) ∧
    ((∃ p ∈ (buildPayload msg parsed fwd now).content, p.ctype = htmlTok) ↔
      parsed.htmlBody.isSome = true) := by
  have hne : (htmlTok == plainTok) = false := by decide
  have hself : (plainTok == plainTok) = true := by decide
  have hne2 : plainTok ≠ htmlTok := by decide
  cases hh : parsed.htmlBody with
  | none => simp [buildPayload, buildContent, hh, hne2, List.countP_cons, hself]
  | some hb =>
    simp [buildPayload, buildContent, hh, hne, hne2, List.countP_cons, hself]

/-! ## C6: the HTML envelope -/

/-- The HTML template up to and including the `From:` label. -/
def htmlHeadLit : List Char :=
  ("<!DOCTYPE html>\n<html>\n<head><title>Forwarded Message</title></head>\n<body>\n<div style=\"border-bottom: 2px solid #ccc; padding-bottom: 10px; margin-bottom: 20px;\">\n<h3>Forwarded Message</h3>\n<p><strong>From:</strong> ").toList

/-- The HTML template between the `From` and `To` fields. -/
def htmlToLit : List Char := ("</p>\n<p><strong>To:</strong> ").toList

/-- The HTML template between the `To` and `Subject` fields. -/
def htmlSubjLit : List Char := ("</p>\n<p><strong>Subject:</strong> ").toList

/-- The HTML template between the `Subject` and `Date` fields. -/
def htmlDateLit : List Char := ("</p>\n<p><strong>Date:</strong> ").toList

/-- The HTML template between the `Date` field and the body `div`. -/
def htmlDivLit : List Char := ("</p>\n</div>\n<div>").toList

/-- The closing part of the HTML template (after trimming). -/
def htmlTailLit : List Char := ("</div>\n</body>\n</html>").toList

/-- The head of an append is the head of its non-empty left part. -/
theorem headD_append_left (X Y : List Char) (d : Char) (hX : X ≠ []) :
    (X ++ Y).headD d = X.headD d := by
  cases X with
  | nil => exact absurd rfl hX
  | cons c t => simp

/-- The last element of an append is the last of its non-empty right part. -/
theorem getLastD_append_right (X Y : List Char) (d : Char) (hY : Y ≠ []) :
    (X ++ Y).getLastD d = Y.getLastD d := by
  rcases List.eq_nil_or_concat Y with h | ⟨L, b, h⟩
  · exact absurd h hY
  · subst h
    rw [List.concat_eq_append, ← List.append_assoc, List.getLastD_concat,
      List.getLastD_concat]

set_option maxRecDepth 8192 in
/-- Trimming the HTML template strips exactly the leading newline and the
trailing newline-plus-indent, for every middle section. -/
theorem jsTrim_html_shape (mid : List Char) :
    jsTrim (['\n'] ++ (htmlHeadLit ++ mid ++ htmlTailLit) ++ ("\n    ").toList) =
      htmlHeadLit ++ mid ++ htmlTailLit := by
  rw [List.append_assoc, jsTrim_ws_left _ _ (by decide),
    jsTrim_ws_right _ _ (by decide)]
  apply jsTrim_eq_self
  · rw [headD_append_left _ _ _ (by simp [htmlHeadLit]),
      headD_append_left _ _ _ (by decide)]
    decide
  · rw [getLastD_append_right _ _ _ (by decide)]
    decide

set_option maxRecDepth 8192 in
/-- The HTML envelope, written as head, interleaved fields, and tail. -/
theorem htmlContent_eq (msg : EmailMsg) (hb now : List Char) :
    htmlContent msg hb now =
      htmlHeadLit ++
        (formatAddrHtml msg.fromAddr ++ htmlToLit ++
          joinAddrs formatAddrHtml msg.toAddrs ++ htmlSubjLit ++ msg.subject ++
          htmlDateLit ++ now ++ htmlDivLit ++ hb) ++ htmlTailLit := by
  have harg :
      ("\n<!DOCTYPE html>\n<html>\n<head><title>Forwarded Message</title></head>\n<body>\n<div style=\"border-bottom: 2px solid #ccc; padding-bottom: 10px; margin-bottom: 20px;\">\n<h3>Forwarded Message</h3>\n<p><strong>From:</strong> ").toList ++
        formatAddrHtml msg.fromAddr ++
        ("</p>\n<p><strong>To:</strong> ").toList ++ joinAddrs formatAddrHtml msg.toAddrs ++
        ("</p>\n<p><strong>Subject:</strong> ").toList ++ msg.subject ++
        ("</p>\n<p><strong>Date:</strong> ").toList ++ now ++
        ("</p>\n</div>\n<div>").toList ++ hb ++
        ("</div>\n</body>\n</html>\n    ").toList =
      ['\n'] ++
        (htmlHeadLit ++
          (formatAddrHtml msg.fromAddr ++ htmlToLit ++
            joinAddrs formatAddrHtml msg.toAddrs ++ htmlSubjLit ++ msg.subject ++
            htmlDateLit ++ now ++ htmlDivLit ++ hb) ++ htmlTailLit) ++
        ("\n    ").toList := by
    simp [htmlHeadLit, htmlToLit, htmlSubjLit, htmlDateLit, htmlDivLit, htmlTailLit,
      List.append_assoc]
  unfold htmlContent
  rw [harg, jsTrim_html_shape]

/-- A string equal to an explicit decomposition around `sub` contains it. -/
theorem jsIncludes_of_eq (s p sub q : List Char) (h : s = p ++ sub ++ q) :
    jsIncludes s sub = true := by
  rw [h]; exact jsIncludes_append p sub q

/-- Sender used in the C6 counterexample: its display name contains a
literal `<`. -/
def c6Msg : EmailMsg :=
  ⟨⟨"a@b".toList, some ("A<B".toList)⟩, [⟨"c@d".toList, none⟩], ['S'], []⟩

/-- Timestamp used in the C6 counterexample. -/
def c6Now : List Char := "2026-01-01T00:00:00.000Z".toList

set_option maxRecDepth 8192 in
/-- C6 fails as stated: the `<` inside the sender's display name is
embedded verbatim in the HTML envelope (the raw text `A<B` appears,
followed by the entity-escaped bracket around the address), and the
escaped form `A&lt;B` appears nowhere, so `&`, `<`, `>` occurring in
name text are not replaced by entities. -/
theorem html_escaping_counterexample :
    jsIncludes (htmlContent c6Msg ("<i>x</i>".toList) c6Now) ("A<B &lt;a@b&gt;".toList)
      = true ∧
    jsIncludes (htmlContent c6Msg ("<i>x</i>".toList) c6Now) ("A&lt;B".toList) = false := by
  decide

set_option maxRecDepth 8192 in
/-- C6 amended: the composer writes the angle brackets it places around
each address as the HTML entities `&lt;`/`&gt;`, while the display-name
and address text themselves are embedded verbatim (no escaping of `&`,
`<`, `>` inside them), and the resolved `htmlBody` is embedded verbatim
inside the body `div` without re-escaping. -/
theorem html_escaping_amended (msg : EmailMsg) (hb now n : List Char)
    (hn : msg.fromAddr.name = some n) (hne : n ≠ []) :
    jsIncludes (htmlContent msg hb now)
      (("<p><strong>From:</strong> ").toList ++ n ++ (" &lt;").toList ++
        msg.fromAddr.email ++ ("&gt;</p>").toList) = true ∧
    jsIncludes (htmlContent msg hb now)
      (("<div>").toList ++ hb ++ ("</div>").toList) = true := by
  have hfa : formatAddrHtml msg.fromAddr =
      n ++ (" &lt;").toList ++ msg.fromAddr.email ++ ("&gt;").toList := by
    simp [formatAddrHtml, hn, hne]
  constructor
  · refine jsIncludes_of_eq _
      (("<!DOCTYPE html>\n<html>\n<head><title>Forwarded Message</title></head>\n<body>\n<div style=\"border-bottom: 2px solid #ccc; padding-bottom: 10px; margin-bottom: 20px;\">\n<h3>Forwarded Message</h3>\n").toList)
      _
      (("\n<p><strong>To:</strong> ").toList ++ joinAddrs formatAddrHtml msg.toAddrs ++
        htmlSubjLit ++ msg.subject ++ htmlDateLit ++ now ++ htmlDivLit ++ hb ++
        htmlTailLit) ?_
    rw [htmlContent_eq, hfa]
    simp [htmlHeadLit, htmlToLit, List.append_assoc]
  · refine jsIncludes_of_eq _
      (htmlHeadLit ++ formatAddrHtml msg.fromAddr ++ htmlToLit ++
        joinAddrs formatAddrHtml msg.toAddrs ++ htmlSubjLit ++ msg.subject ++
        htmlDateLit ++ now ++ ("</p>\n</div>\n").toList)
      _
      (("\n</body>\n</html>").toList) ?_
    rw [htmlContent_eq]
    simp [htmlDivLit, htmlTailLit, List.append_assoc]

/-- Message used for the C6 amended witness. -/
def c6WMsg : EmailMsg :=
  ⟨⟨"x@y".toList, some ("N".toList)⟩, [], "s".toList, []⟩

set_option maxRecDepth 8192 in
/-- Witness for `html_escaping_amended` at a concrete message. -/
theorem html_escaping_amended_witness :
    jsIncludes (htmlContent c6WMsg ("<b>t</b>".toList) c6Now)
      (("<p><strong>From:</strong> ").toList ++ ("N".toList) ++ (" &lt;").toList ++
        c6WMsg.fromAddr.email ++ ("&gt;</p>").toList) = true ∧
    jsIncludes (htmlContent c6WMsg ("<b>t</b>".toList) c6Now)
      (("<div>").toList ++ ("<b>t</b>".toList) ++ ("</div>").toList) = true :=
  html_escaping_amended c6WMsg ("<b>t</b>".toList) c6Now ("N".toList) (by decide) (by decide)

/-! ## C7: non-emptiness of the decoded bodies -/

/-- A text containing a non-whitespace character does not trim to empty. -/
theorem jsTrim_ne_nil (l : List Char) (h : l.any (fun c => !isJsWs c) = true) :
    jsTrim l ≠ [] := by
  intro hnil
  unfold jsTrim at hnil
  rw [List.reverse_eq_nil_iff, List.dropWhile_eq_nil_iff] at hnil
  simp only [List.mem_reverse] at hnil
  obtain ⟨c, hc, hcw⟩ := List.any_eq_true.mp h
  have hsplit : c ∈ List.takeWhile isJsWs l ∨ c ∈ List.dropWhile isJsWs l := by
    rw [← List.mem_append, List.takeWhile_append_dropWhile]
    exact hc
  rcases hsplit with h1 | h2
  · exact absurd (List.mem_takeWhile_imp h1) (by simpa using hcw)
  · exact absurd (hnil c h2) (by simpa using hcw)

/-- The resolved `textBody` of the multipart branch is non-empty whenever
the trimmed body block is. -/
theorem multipartResolve_textBody_ne (body boundary ct : List Char)
    (h : jsTrim body ≠ []) :
    (multipartResolve body boundary ct).textBody ≠ [] := by
  by_cases h1 : (classifySections (sectionsOf body boundary)).1 = []
  · by_cases h2 : (classifySections (sectionsOf body boundary)).2 = []
    · simp [multipartResolve, h1, h2, h]
    · simp [multipartResolve, h1, h2]
  · simp [multipartResolve, h1]

/-- The multipart branch never resolves an empty `htmlBody`. -/
theorem multipartResolve_htmlBody_ne (body boundary ct hb : List Char)
    (h : (multipartResolve body boundary ct).htmlBody = some hb) :
    hb ≠ [] := by
  by_cases h2 : (classifySections (sectionsOf body boundary)).2 = []
  · rw [multipartResolve] at h
    simp [h2] at h
  · rw [multipartResolve] at h
    simp [h2] at h
    intro hnil
    exact h2 (by rw [h, hnil])

/-- The body block that the parser actually works on: the whole text in
the no-structure fallback, the joined blank-line segments otherwise. -/
def originalBody (rawText : List Char) : List Char :=
  if (splitBlank rawText).length < 2 then rawText else bodyOf rawText

/-- C7 fails as stated: a message whose body block is a single space is
non-empty, yet the resolved `textBody` is empty (trimming erases it). -/
theorem textBody_nonempty_counterexample :
    originalBody ("Subject: hi\n\n ".toList) = [' '] ∧
    ([' '] : List Char) ≠ [] ∧
    (parseDecoded ("Subject: hi\n\n ".toList)).textBody = [] := by
  decide

/-- C7 amended: `textBody` is non-empty whenever the original body
contains a non-whitespace character (a whitespace-only body trims to
empty), and `htmlBody`, whenever present, is non-empty. -/
theorem textBody_nonempty_amended (rawText : List Char)
    (h : (originalBody rawText).any (fun c => !isJsWs c) = true) :
    (parseDecoded rawText).textBody ≠ [] ∧
    (∀ hb, (parseDecoded rawText).htmlBody = some hb → hb ≠ []) := by
  constructor
  · by_cases h2 : (splitBlank rawText).length < 2
    · have h' : rawText.any (fun c => !isJsWs c) = true := by
        unfold originalBody at h
        rwa [if_pos h2] at h
      simp only [parseDecoded, if_pos h2]
      exact jsTrim_ne_nil _ h'
    · have h' : (bodyOf rawText).any (fun c => !isJsWs c) = true := by
        unfold originalBody at h
        rwa [if_neg h2] at h
      have hne := jsTrim_ne_nil _ h'
      simp only [parseDecoded, if_neg h2]
      by_cases hmp : jsIncludes (ctypeOf rawText) ("multipart".toList) = true
      · rw [if_pos hmp]
        cases hfb : findBoundary (headersOf rawText) with
        | none => exact hne
        | some g => exact multipartResolve_textBody_ne _ _ _ hne
      · rw [if_neg hmp]
        exact hne
  · intro hb hhb
    by_cases h2 : (splitBlank rawText).length < 2
    · simp [parseDecoded, if_pos h2] at hhb
    · simp only [parseDecoded, if_neg h2] at hhb
      by_cases hmp : jsIncludes (ctypeOf rawText) ("multipart".toList) = true
      · rw [if_pos hmp] at hhb
        cases hfb : findBoundary (headersOf rawText) with
        | none => rw [hfb] at hhb; simp at hhb
        | some g =>
          rw [hfb] at hhb
          exact multipartResolve_htmlBody_ne _ _ _ _ hhb
      · rw [if_neg hmp] at hhb
        simp at hhb

/-- The round-trip multipart message used as the C7 amended witness. -/
def c7WRaw : List Char :=
  ("Content-Type: multipart/mixed; boundary=XYZ\r\n\r\n--XYZ\r\nContent-Type: text/plain\r\n\r\nHello\r\n--XYZ\r\nContent-Type: text/html\r\n\r\n<b>Hi</b>\r\n--XYZ--").toList

set_option maxRecDepth 16384 in
/-- Witness for `textBody_nonempty_amended` on a multipart message with
both a plain and an HTML section. -/
theorem textBody_nonempty_amended_witness :
    (parseDecoded c7WRaw).textBody ≠ [] ∧
    (∀ hb, (parseDecoded c7WRaw).htmlBody = some hb → hb ≠ []) :=
  textBody_nonempty_amended c7WRaw (by decide)

/-! ## C8 and C9: the top-level handler -/

/-- C8: with the forwarding address absent (or empty, which is equally
falsy), the handler returns the 500 configuration-error response without
parsing the message and without invoking the send collaborator. -/
theorem missing_config_short_circuit (msg : EmailMsg) (fwdTo : Option (List Char))
    (send : MailChannelsPayload → SendOutcome) (now : List Char)
    (h : fwdTo.getD [] = []) :
    emailHandler msg fwdTo send now = (⟨500, configErrorBody⟩, ⟨0, 0⟩) := by
  simp [emailHandler, h]

/-- Message used for the C8 witness. -/
def c8Msg : EmailMsg := ⟨⟨"a@b".toList, none⟩, [], [], []⟩

/-- Witness for `missing_config_short_circuit` with the variable unset. -/
theorem missing_config_short_circuit_witness :
    emailHandler c8Msg none (fun _ => SendOutcome.ok []) [] =
      (⟨500, configErrorBody⟩, ⟨0, 0⟩) :=
  missing_config_short_circuit c8Msg none (fun _ => SendOutcome.ok []) [] (by decide)

/-- C9: when the outbound send returns a non-success status, the handler
returns a failure response whose message embeds the status and the
response body, the thrown error's message is propagated unmodified, and
exactly one send is issued (no retry). -/
theorem send_failure_propagates (msg : EmailMsg) (fwd : List Char)
    (send : MailChannelsPayload → SendOutcome) (now : List Char) (st : Nat) (b : List Char)
    (hfwd : fwd ≠ [])
    (hsend : send (buildPayload msg (parseEmailBody msg.raw) fwd now) =
      SendOutcome.httpError st b) :
    (emailHandler msg (some fwd) send now).1.status = 500 ∧
    (emailHandler msg (some fwd) send now).1.body =
      "Email processing failed: ".toList ++ sendFailMessage st b ∧
    jsIncludes ((emailHandler msg (some fwd) send now).1.body) ((toString st).toList) = true ∧
    jsIncludes ((emailHandler msg (some fwd) send now).1.body) b = true ∧
    (emailHandler msg (some fwd) send now).2.sendCalls = 1 := by
  have hres : emailHandler msg (some fwd) send now =
      (⟨500, "Email processing failed: ".toList ++ sendFailMessage st b⟩, ⟨1, 1⟩) := by
    simp [emailHandler, hfwd, hsend]
  refine ⟨by rw [hres], by rw [hres], ?_, ?_, by rw [hres]⟩
  · rw [hres]
    refine jsIncludes_of_eq _
      ("Email processing failed: ".toList ++ "MailChannels API failed: ".toList) _
      (" - ".toList ++ b) ?_
    simp [sendFailMessage, List.append_assoc]
  · rw [hres]
    refine jsIncludes_of_eq _
      ("Email processing failed: ".toList ++ "MailChannels API failed: ".toList ++
        (toString st).toList ++ " - ".toList) _ [] ?_
    simp [sendFailMessage, List.append_assoc]

/-- Message used for the C9 witness. -/
def c9Msg : EmailMsg := ⟨⟨"s@t".toList, none⟩, [], "x".toList, []⟩

/-- Witness for `send_failure_propagates` with a constant 403 responder. -/
theorem send_failure_propagates_witness :
    (emailHandler c9Msg (some ("f@g".toList))
        (fun _ => SendOutcome.httpError 403 ("denied".toList)) []).1.status = 500 ∧
    (emailHandler c9Msg (some ("f@g".toList))
        (fun _ => SendOutcome.httpError 403 ("denied".toList)) []).1.body =
      "Email processing failed: ".toList ++ sendFailMessage 403 ("denied".toList) ∧
    jsIncludes ((emailHandler c9Msg (some ("f@g".toList))
        (fun _ => SendOutcome.httpError 403 ("denied".toList)) []).1.body)
      ((toString 403).toList) = true ∧
    jsIncludes ((emailHandler c9Msg (some ("f@g".toList))
        (fun _ => SendOutcome.httpError 403 ("denied".toList)) []).1.body)
      ("denied".toList) = true ∧
    (emailHandler c9Msg (some ("f@g".toList))
        (fun _ => SendOutcome.httpError 403 ("denied".toList)) []).2.sendCalls = 1 :=
  send_failure_propagates c9Msg ("f@g".toList)
    (fun _ => SendOutcome.httpError 403 ("denied".toList)) [] 403 ("denied".toList)
    (by decide) rfl

/-! ## C10: chunking invariance of the Byte Assembler -/

/-- The read loop's concatenation is the flattening of the chunk list. -/
theorem combineChunks_eq_flatten (chunks : List (List Nat)) :
    combineChunks chunks = chunks.flatten := by
  have hgen : ∀ (cs : List (List Nat)) (acc : List Nat),
      cs.foldl (fun a c => a ++ c) acc = acc ++ cs.flatten := by
    intro cs
    induction cs with
    | nil => intro acc; simp
    | cons c cs ih => intro acc; simp [List.foldl_cons, ih, List.append_assoc]
  simpa [combineChunks] using hgen chunks []

/-- C10: decoding the reassembled text, and hence the parser's output,
depends only on the concatenated bytes and not on chunk boundaries. -/
theorem chunking_invariance (c1 c2 : List (List Nat)) (h : c1.flatten = c2.flatten) :
    assembleText c1 = assembleText c2 ∧ parseEmailBody c1 = parseEmailBody c2 := by
  have ht : assembleText c1 = assembleText c2 := by
    unfold assembleText
    rw [combineChunks_eq_flatten, combineChunks_eq_flatten, h]
  exact ⟨ht, by unfold parseEmailBody; rw [ht]⟩

/-- Witness for `chunking_invariance`: the bytes of `hi` split into one
and into two chunks. -/
theorem chunking_invariance_witness :
    assembleText [[104], [105]] = assembleText [[104, 105]] ∧
    parseEmailBody [[104], [105]] = parseEmailBody [[104, 105]] :=
  chunking_invariance [[104], [105]] [[104, 105]] (by decide)

end Lvault
